import Mathlib

/-!
Verification development for `run.py` of the P-tuning-v2 ablation harness.

The file shallowly embeds the orchestration logic of `run.py`:
the `train`, `evaluate` and `predict` functions and the `__main__`
task-dispatch block.  The external trainer (`trainer.train`,
`trainer.evaluate`, `trainer.predict`), the random number generator
(`torch.randperm`, `random.sample`, `torch.randn`) and the metrics it
returns are modelled as oracles; tensors are modelled as lists of rows of
rationals, and the in-place tensor assignments of PyTorch are modelled by
shape-checked functional updates (a shape mismatch, which raises a
`RuntimeError` in PyTorch, is modelled by `Option.none`).
-/

namespace PV2

/-- A metrics dictionary as returned by `trainer.evaluate()`:
keys such as `"eval_accuracy"` mapped to rational metric values. -/
def Metrics : Type := List (String × ℚ)

instance : DecidableEq Metrics := by
  unfold Metrics
  infer_instance

/-- `getMetric ms key` models the Python dict access `ms[key]`:
`some v` for the first binding of `key`, `none` models a `KeyError`. -/
def getMetric : Metrics → String → Option ℚ
  | [], _ => none
  | (k, v) :: rest, key => if k = key then some v else getMetric rest key

/-- A 2-D tensor (such as the prompt-embedding weight
`trainer.model.prefix_encoder.embedding.weight`) as a list of rows. -/
def Mat : Type := List (List ℚ)

instance : DecidableEq Mat := by
  unfold Mat
  infer_instance

/-- Number of columns of a 2-D tensor (`t.size()[1]`). -/
def width (m : Mat) : ℕ := (m.headD []).length

/-- `torch.zeros(r, c)`. -/
def zeros (r c : ℕ) : Mat := List.replicate r (List.replicate c 0)

/-- Advanced indexing `m[idx]` with an index tensor: gather the rows of `m`
listed in `idx` (a fresh tensor; `torch.randperm` supplies `idx`). -/
def gatherRows (m : Mat) (idx : List ℕ) : Mat := idx.map (fun i => m.getD i [])

/-- A tensor value appearing on the right-hand side of an indexed
assignment: either 1-D (`torch.randn(c)`) or 2-D (`torch.zeros(r, c)`). -/
inductive Tensor where
  | vec (v : List ℚ)
  | mat (m : Mat)

/-- The shape of a (rectangular) tensor. -/
def tensorShape : Tensor → List ℕ
  | .vec v => [v.length]
  | .mat m => [m.length, width m]

/-- PyTorch broadcast check for `dst.copy_(src)` as used by indexed
assignment: `src` of shape `src` must be expandable to the target shape
`tgt` (no more dimensions than the target; trailing dimensions equal or 1). -/
def expandableTo (src tgt : List ℕ) : Bool :=
  if src.length ≤ tgt.length then
    (List.zip src.reverse tgt.reverse).all (fun p => p.1 == p.2 || p.1 == 1)
  else false

/-- Expand a tensor to a single row of length `c` (the view `m[r, :]`),
following PyTorch broadcast-copy semantics; `none` is the shape-mismatch
`RuntimeError`. -/
def expandToRow (t : Tensor) (c : ℕ) : Option (List ℚ) :=
  if expandableTo (tensorShape t) [c] then
    match t with
    | .vec v => some (if v.length = c then v else List.replicate c (v.headD 0))
    | .mat _ => none
  else none

/-- Expand a tensor to `len` rows of length `c` (the view `m[lo:hi, :]`),
following PyTorch broadcast-copy semantics. -/
def expandToRows (t : Tensor) (len c : ℕ) : Option Mat :=
  if expandableTo (tensorShape t) [len, c] then
    match t with
    | .vec v =>
        let row := if v.length = c then v else List.replicate c (v.headD 0)
        some (List.replicate len row)
    | .mat m =>
        let rows := if m.length = len then m else List.replicate len (m.headD [])
        some (rows.map (fun r => if r.length = c then r else List.replicate c (r.headD 0)))
  else none

/-- In-place row assignment `m[r, :] = t`. -/
def setRow (m : Mat) (r : ℕ) (t : Tensor) : Option Mat :=
  if r < m.length then (expandToRow t (width m)).map (fun v => m.set r v)
  else none

/-- In-place slice assignment `m[lo:hi, :] = t` (the Python slice is
clamped to the number of rows of `m`). -/
def setSlice (m : Mat) (lo hi : ℕ) (t : Tensor) : Option Mat :=
  let len := min hi m.length - lo
  (expandToRows t len (width m)).map (fun rows =>
    m.take lo ++ rows ++ m.drop (lo + len))

/-- `pandas` rounding to 4 decimal places (`df.round(decimals=4)`),
modelled on rationals. -/
def round4 (x : ℚ) : ℚ := (round (x * 10000) : ℤ) / 10000

/-- The CSV file written by `df.to_csv("remove_result.csv", index=False)`:
file name, column labels, the single data row, and whether an index column
is written. -/
structure CsvOut where
  filename : String
  columns : List String
  row : List ℚ
  index : Bool
deriving DecidableEq

/-- Lines 147-149 of `run.py`:
`df = pd.DataFrame(results, columns=[str(i) for i in range(15)])`,
`df = df.round(decimals=4)`, `df.to_csv("remove_result.csv", index=False)`. -/
def makeCsv (results : List ℚ) : CsvOut :=
  { filename := "remove_result.csv"
    columns := (List.range 15).map toString
    row := results.map round4
    index := false }

/-- Identifier of one ablation run of `evaluate`. -/
inductive RunId where
  | base
  | permute (i : ℕ)
  | removeFirst
  | removeLast
  | removeMiddle
  | noise (j i : ℕ)
deriving DecidableEq

/-- Observable events of `evaluate`: installing a new prompt-embedding
weight (`mutate`), and a call to the external `trainer.evaluate` together
with the metrics it returned (`call`). -/
inductive Ev where
  | mutate (r : RunId) (w : Mat)
  | call (r : RunId) (ms : Metrics)
deriving DecidableEq

/-- The state threaded through `evaluate`: the current prompt-embedding
weight `w` (`trainer.model.prefix_encoder.embedding.weight`), the number
`k` of `trainer.evaluate` calls made so far, and the event trace `tr`. -/
structure EvSt where
  w : Mat
  k : ℕ
  tr : List Ev
deriving DecidableEq

/-- The external oracles of `evaluate`:
`metricsAt k` is the metrics dictionary returned by the `k`-th call to
`trainer.evaluate()`; `permAt i` is `torch.randperm(prompts.size()[0])`
in permutation run `i`; `sampleAt j i` is
`random.sample(range(0, prompts.size()[0]), j)` in noise run `(j, i)`;
`noiseAt j i r` is the `torch.randn(prompts.size()[1])` vector written
into row `r` during noise run `(j, i)`. -/
structure Oracle where
  metricsAt : ℕ → Metrics
  permAt : ℕ → List ℕ
  sampleAt : ℕ → ℕ → List ℕ
  noiseAt : ℕ → ℕ → ℕ → List ℚ

/-- One iteration of the permutation loop (lines 62-68 of `run.py`):
`trainer.model.prefix_encoder.embedding.weight =
torch.nn.Parameter(prompts[torch.randperm(prompts.size()[0])])`,
then `metrics = trainer.evaluate()`, then
`avg_accuracy += metrics["eval_accuracy"]` (a missing key is a
`KeyError`, modelled by `none`).  The logging calls
`trainer.log_metrics` / `trainer.save_metrics` touch neither the weight
nor the aggregation and are not traced. -/
def permuteIter (o : Oracle) (prompts : Mat) (p : EvSt × ℚ) (i : ℕ) :
    Option (EvSt × ℚ) := do
  let st := p.1
  let w' := gatherRows prompts (o.permAt i)
  let ms := o.metricsAt st.k
  let a ← getMetric ms "eval_accuracy"
  pure ({ w := w', k := st.k + 1,
          tr := st.tr ++ [Ev.mutate (RunId.permute i) w',
                          Ev.call (RunId.permute i) ms] },
        p.2 + a)

/-- The permutation ablation (lines 58-71 of `run.py`): `eval_runs = 100`
runs starting from `avg_accuracy = 0.0`, then
`avg_accuracy = avg_accuracy / eval_runs`.  Returns the final state and
the average permute accuracy. -/
def permutePhase (o : Oracle) (prompts : Mat) (st : EvSt) :
    Option (EvSt × ℚ) := do
  let p ← (List.range 100).foldlM (permuteIter o prompts) (st, (0 : ℚ))
  pure (p.1, p.2 / 100)

/-- Line 97-102 of `run.py` ("Remove first 7 prompt vectors"):
`trainer.model.prefix_encoder.embedding.weight[7, :] =
torch.nn.Parameter(torch.zeros(7, prompts.size()[1]))`,
then `metrics = trainer.evaluate()`, then
`accuracy = metrics["eval_accuracy"]`. -/
def removeFirstStep (o : Oracle) (prompts : Mat) (st : EvSt) :
    Option (EvSt × ℚ) := do
  let w' ← setRow st.w 7 (Tensor.mat (zeros 7 (width prompts)))
  let ms := o.metricsAt st.k
  let a ← getMetric ms "eval_accuracy"
  pure ({ w := w', k := st.k + 1,
          tr := st.tr ++ [Ev.mutate RunId.removeFirst w',
                          Ev.call RunId.removeFirst ms] }, a)

/-- Lines 106-112 of `run.py` ("Remove last 7 prompt vectors"):
`weight[57:64, :] = torch.nn.Parameter(torch.zeros(7, prompts.size()[1]))`,
then `metrics = trainer.evaluate()`, then
`accuracy = metrics["eval_accuracy"]`. -/
def removeLastStep (o : Oracle) (prompts : Mat) (st : EvSt) :
    Option (EvSt × ℚ) := do
  let w' ← setSlice st.w 57 64 (Tensor.mat (zeros 7 (width prompts)))
  let ms := o.metricsAt st.k
  let a ← getMetric ms "eval_accuracy"
  pure ({ w := w', k := st.k + 1,
          tr := st.tr ++ [Ev.mutate RunId.removeLast w',
                          Ev.call RunId.removeLast ms] }, a)

/-- Lines 116-122 of `run.py` ("Remove middle 7 prompt vectors"):
`weight[28:35, :] = torch.nn.Parameter(torch.zeros(7, prompts.size()[1]))`,
then `metrics = trainer.evaluate()`, then
`accuracy = metrics["eval_accuracy"]`. -/
def removeMiddleStep (o : Oracle) (prompts : Mat) (st : EvSt) :
    Option (EvSt × ℚ) := do
  let w' ← setSlice st.w 28 35 (Tensor.mat (zeros 7 (width prompts)))
  let ms := o.metricsAt st.k
  let a ← getMetric ms "eval_accuracy"
  pure ({ w := w', k := st.k + 1,
          tr := st.tr ++ [Ev.mutate RunId.removeMiddle w',
                          Ev.call RunId.removeMiddle ms] }, a)

/-- One inner run of the Gaussian-noise ablation (lines 133-141 of
`run.py`): `rows = random.sample(range(0, prompts.size()[0]), j)`; then
for each `r` in `rows`,
`weight[r, :] = torch.nn.Parameter(torch.randn(prompts.size()[1]))`;
then `metrics = trainer.evaluate()`; then
`avg_accuracy += metrics["eval_noise"]` — the source reads the key
`"eval_noise"`, not `"eval_accuracy"`. -/
def noiseInner (o : Oracle) (j : ℕ) (p : EvSt × ℚ) (i : ℕ) :
    Option (EvSt × ℚ) := do
  let st := p.1
  let rows := o.sampleAt j i
  let w' ← rows.foldlM (fun w r => setRow w r (Tensor.vec (o.noiseAt j i r))) st.w
  let ms := o.metricsAt st.k
  let a ← getMetric ms "eval_noise"
  pure ({ w := w', k := st.k + 1,
          tr := st.tr ++ [Ev.mutate (RunId.noise j i) w',
                          Ev.call (RunId.noise j i) ms] },
        p.2 + a)

/-- One outer iteration `j` of the Gaussian-noise ablation (lines
131-145 of `run.py`): `eval_runs = 5` inner runs starting from
`avg_accuracy = 0.0`, then `avg_accuracy = avg_accuracy / eval_runs` and
`results[0, j] = avg_accuracy`. -/
def noiseOuter (o : Oracle) (p : EvSt × List ℚ) (j : ℕ) :
    Option (EvSt × List ℚ) := do
  let q ← (List.range 5).foldlM (noiseInner o j) (p.1, (0 : ℚ))
  pure (q.1, p.2 ++ [q.2 / 5])

/-- The Gaussian-noise ablation (lines 127-145 of `run.py`):
`for j in range(15)`, accumulating the per-`j` averages into the
`results` row of the 1-by-15 array. -/
def noisePhase (o : Oracle) (st : EvSt) : Option (EvSt × List ℚ) :=
  (List.range 15).foldlM (noiseOuter o) (st, ([] : List ℚ))

/-- The whole `evaluate` function (lines 40-149 of `run.py`), composing:
the initial unperturbed `trainer.evaluate()` (line 53), the capture
`prompts = trainer.model.prefix_encoder.embedding.weight` (line 61), the
permutation ablation, the three zeroing steps, the Gaussian-noise
ablation, and the final CSV aggregation. -/
def evaluateRun (o : Oracle) (st0 : EvSt) : Option (EvSt × CsvOut) := do
  let ms0 := o.metricsAt st0.k
  let st1 : EvSt :=
    { st0 with k := st0.k + 1, tr := st0.tr ++ [Ev.call RunId.base ms0] }
  let prompts := st1.w
  let r1 ← permutePhase o prompts st1
  let r2 ← removeFirstStep o prompts r1.1
  let r3 ← removeLastStep o prompts r2.1
  let r4 ← removeMiddleStep o prompts r3.1
  let r5 ← noisePhase o r4.1
  pure (r5.1, makeCsv r5.2)

/-! ### The `__main__` block -/

/-- Actions of the `__main__` trailer (lines 246-253 of `run.py`).
`evalAct` carries the `last_checkpoint` argument passed to `evaluate`. -/
inductive MainAct where
  | trainAct
  | evalAct (lastCheckpoint : Option String)
  | predictAct
deriving DecidableEq

/-- Lines 246-253 of `run.py`.  In the source the `do_train` branch
(lines 246-247) and the `do_predict` branch (lines 252-253) are commented
out; only `if training_args.do_eval: evaluate(trainer, last_checkpoint)`
(lines 249-250) is live code. -/
def mainLoops (doTrain doEval doPredict : Bool)
    (lastCheckpoint : Option String) : List MainAct :=
  let _ := doTrain
  let _ := doPredict
  if doEval then [MainAct.evalAct lastCheckpoint] else []

/-- The five implemented tasks of the dispatch block. -/
inductive Task where
  | superglue
  | glue
  | ner
  | srl
  | qa
deriving DecidableEq

/-- Python's `str.lower()`, modelled character-wise (the task and
dataset names involved are ASCII). -/
def lowerStr (s : String) : String := String.mk (s.data.map Char.toLower)

/-- Modelled from the spec: the dataset-name lists `SUPERGLUE_DATASETS`,
`GLUE_DATASETS`, `NER_DATASETS`, `SRL_DATASETS`, `QA_DATASETS` are
imported from `tasks/utils.py`, which is not part of the sources; they
are kept abstract as one list of dataset names per benchmark family
(SuperGLUE, GLUE, NER, SRL, QA). -/
structure TaskTables where
  superglueDatasets : List String
  glueDatasets : List String
  nerDatasets : List String
  srlDatasets : List String
  qaDatasets : List String

/-- Outcome of the dispatch block of `__main__` (lines 204-229 of
`run.py`): `notImplemented` models `raise NotImplementedError`,
`assertFailed` models a failing `assert dataset_name.lower() in ...`,
and `trainerBuilt t` models importing task `t`'s `get_trainer` and
calling `trainer, predict_dataset = get_trainer(args)`. -/
inductive MainOutcome where
  | notImplemented
  | assertFailed
  | trainerBuilt (t : Task)
deriving DecidableEq

/-- Lines 204-229 of `run.py`: the `if/elif/else` chain on
`data_args.task_name.lower()`, each branch asserting
`data_args.dataset_name.lower()` membership in the task's dataset list
before importing that task's `get_trainer`, the `else` branch raising
`NotImplementedError`; then `trainer, predict_dataset = get_trainer(args)`. -/
def selectTrainer (tt : TaskTables) (taskName datasetName : String) :
    MainOutcome :=
  if lowerStr taskName = "superglue" then
    if lowerStr datasetName ∈ tt.superglueDatasets then .trainerBuilt .superglue
    else .assertFailed
  else if lowerStr taskName = "glue" then
    if lowerStr datasetName ∈ tt.glueDatasets then .trainerBuilt .glue
    else .assertFailed
  else if lowerStr taskName = "ner" then
    if lowerStr datasetName ∈ tt.nerDatasets then .trainerBuilt .ner
    else .assertFailed
  else if lowerStr taskName = "srl" then
    if lowerStr datasetName ∈ tt.srlDatasets then .trainerBuilt .srl
    else .assertFailed
  else if lowerStr taskName = "qa" then
    if lowerStr datasetName ∈ tt.qaDatasets then .trainerBuilt .qa
    else .assertFailed
  else .notImplemented

/-- Reference function written from the amended wording of claim C5: the
program raises `NotImplementedError` exactly when the lowercased task
name is none of the five implemented tasks; otherwise, when the
lowercased dataset name belongs to the selected task's dataset list the
trainer is constructed, and when it does not the dataset assertion fails. -/
def selectTrainerSpec (tt : TaskTables) (taskName datasetName : String) :
    MainOutcome :=
  if lowerStr taskName ∉ ["superglue", "glue", "ner", "srl", "qa"] then
    .notImplemented
  else
    let pick : Task :=
      if lowerStr taskName = "superglue" then .superglue
      else if lowerStr taskName = "glue" then .glue
      else if lowerStr taskName = "ner" then .ner
      else if lowerStr taskName = "srl" then .srl
      else .qa
    let datasets : List String :=
      match pick with
      | .superglue => tt.superglueDatasets
      | .glue => tt.glueDatasets
      | .ner => tt.nerDatasets
      | .srl => tt.srlDatasets
      | .qa => tt.qaDatasets
    if lowerStr datasetName ∈ datasets then .trainerBuilt pick
    else .assertFailed

/-! ### The `train` function -/

/-- The external trainer as seen by `train`: `trainMetrics cp` is
`trainer.train(resume_from_checkpoint=cp).metrics`. -/
structure TrainOracle where
  trainMetrics : Option String → Metrics

/-- Observable events of the `train` function. -/
inductive TrainEv where
  | trainCall (cp : Option String)
  | logMetrics (s : String) (ms : Metrics)
  | saveMetrics (s : String) (ms : Metrics)
  | saveState
  | logBest
deriving DecidableEq

/-- The `train` function (lines 23-38 of `run.py`): `checkpoint = None`;
`if resume_from_checkpoint is not None: checkpoint =
resume_from_checkpoint; elif last_checkpoint is not None: checkpoint =
last_checkpoint`; `train_result =
trainer.train(resume_from_checkpoint=checkpoint)`; then
`trainer.log_metrics("train", metrics)`,
`trainer.save_metrics("train", metrics)`, `trainer.save_state()`,
`trainer.log_best_metrics()` on `metrics = train_result.metrics`. -/
def trainRun (o : TrainOracle) (resumeFromCheckpoint lastCheckpoint : Option String) :
    List TrainEv :=
  let checkpoint : Option String :=
    if resumeFromCheckpoint.isSome then resumeFromCheckpoint
    else if lastCheckpoint.isSome then lastCheckpoint
    else none
  let ms := o.trainMetrics checkpoint
  [TrainEv.trainCall checkpoint, TrainEv.logMetrics "train" ms,
   TrainEv.saveMetrics "train" ms, TrainEv.saveState, TrainEv.logBest]

/-! ### The `predict` function -/

/-- The `predict_dataset` argument of `predict`: absent (`None`), a dict
of named datasets, or a single dataset. -/
inductive PDataset (D : Type) where
  | nodata
  | dict (entries : List (String × D))
  | single (d : D)

/-- Observable events of the `predict` function. -/
inductive PredEv (D : Type) where
  | predictCall (d : D)
  | logNoDataset
  | logMetrics (s : String) (ms : Metrics)
  | saveMetrics (s : String) (ms : Metrics)

/-- The `predict` function (lines 152-172 of `run.py`); `o d` is the
metrics component of
`trainer.predict(d, metric_key_prefix="predict")` (the `predictions`
component and the `np.argmax(predictions, axis=2)` on it feed no further
observable action and are not traced). -/
def predictRun {D : Type} (o : D → Metrics) :
    PDataset D → List (PredEv D)
  | .nodata => [PredEv.logNoDataset]
  | .dict es => es.flatMap (fun e =>
      [PredEv.predictCall e.2, PredEv.logMetrics "predict" (o e.2),
       PredEv.saveMetrics "predict" (o e.2)])
  | .single d =>
      [PredEv.predictCall d, PredEv.logMetrics "predict" (o d),
       PredEv.saveMetrics "predict" (o d)]

/-- The dataset argument of a `trainer.predict` call event, if any. -/
def callArg {D : Type} : PredEv D → Option D
  | .predictCall d => some d
  | _ => none

/-! ### Trace instruments used by the theorems -/

/-- The two events of one ablation run: install a weight, then call
`trainer.evaluate` and receive a metrics dictionary. -/
def chunkEvents (c : RunId × Mat × Metrics) : List Ev :=
  [Ev.mutate c.1 c.2.1, Ev.call c.1 c.2.2]

/-- Concatenation of run chunks. -/
def chunksJoin (cs : List (RunId × Mat × Metrics)) : List Ev :=
  (cs.map chunkEvents).flatten

/-- The values read under `key` from the metrics of the `trainer.evaluate`
calls recorded in a trace. -/
def callVals (key : String) (l : List Ev) : List ℚ :=
  l.filterMap (fun e =>
    match e with
    | Ev.call _ ms => getMetric ms key
    | Ev.mutate _ _ => none)

/-! ### Concrete fixtures used by counterexamples and witnesses -/

/-- A 64-row, 1-column prompt-embedding weight (the repository trains 64
prompt vectors; one column suffices for the shape bookkeeping). -/
def p64 : Mat := List.replicate 64 [(1 : ℚ)]

/-- A two-row prompt-embedding weight. -/
def p2 : Mat := [[(1 : ℚ)], [(2 : ℚ)]]

/-- Initial evaluate state over `p64`. -/
def stBase : EvSt := { w := p64, k := 0, tr := [] }

/-- Initial evaluate state over `p2`. -/
def st2 : EvSt := { w := p2, k := 0, tr := [] }

/-- A metrics dictionary holding only `eval_accuracy` (the shape of a
standard `transformers` evaluation metrics dictionary). -/
def msAcc : Metrics := [("eval_accuracy", (7 : ℚ))]

/-- A metrics dictionary holding `eval_accuracy` and an `eval_noise`
entry with a different value. -/
def msBoth : Metrics := [("eval_accuracy", (7 : ℚ)), ("eval_noise", (3 : ℚ))]

/-- Oracle whose every `trainer.evaluate` call returns `msAcc`, whose
permutations are trivial and whose samples are empty. -/
def oAccOnly : Oracle :=
  { metricsAt := fun _ => msAcc
    permAt := fun _ => []
    sampleAt := fun _ _ => []
    noiseAt := fun _ _ _ => [] }

/-- Oracle whose every `trainer.evaluate` call returns `msBoth`, whose
permutations are trivial and whose samples are empty. -/
def oBoth : Oracle :=
  { metricsAt := fun _ => msBoth
    permAt := fun _ => []
    sampleAt := fun _ _ => []
    noiseAt := fun _ _ _ => [] }

/-- Oracle over `p2`: identity permutations, metrics `msBoth`. -/
def oP2 : Oracle :=
  { metricsAt := fun _ => msBoth
    permAt := fun _ => [0, 1]
    sampleAt := fun _ _ => []
    noiseAt := fun _ _ _ => [] }

/-- Concrete dataset tables (one dataset name per family), standing in
for the lists of `tasks/utils.py`. -/
def tt0 : TaskTables :=
  { superglueDatasets := ["boolq"]
    glueDatasets := ["sst2"]
    nerDatasets := ["conll2003"]
    srlDatasets := ["conll2005"]
    qaDatasets := ["squad"] }

end PV2

namespace PV2

/-! ## Claim theorems -/

/-! ### The permutation loop, exactly -/

/-- Rows gathered along a permutation of the row indices of `m` are a
permutation of the rows of `m`. -/
theorem gatherRows_perm (m : Mat) (idx : List ℕ)
    (h : idx.Perm (List.range m.length)) : (gatherRows m idx).Perm m := by
  have h2 : (gatherRows m idx).Perm (gatherRows m (List.range m.length)) :=
    h.map _
  have h3 : gatherRows m (List.range m.length) = m := by
    unfold gatherRows
    apply List.ext_getElem
    · simp
    · intro i h1 hm
      simp only [List.getElem_map, List.getElem_range]
      rw [List.getD_eq_getElem?_getD, List.getElem?_eq_getElem hm]
      rfl
  rw [h3] at h2
  exact h2

/-- Exact behaviour of the first `n` iterations of the permutation loop:
every iteration `i` installs `gatherRows prompts (o.permAt i)` — a gather
from the matrix `prompts` captured once before the loop — then makes one
`trainer.evaluate` call, and the accumulator collects that call's
`eval_accuracy` value. -/
theorem permuteFold_spec (o : Oracle) (prompts : Mat) (nv : ℕ → ℚ)
    (hacc : ∀ m, getMetric (o.metricsAt m) "eval_accuracy" = some (nv m)) :
    ∀ (n : ℕ) (st : EvSt) (a0 : ℚ),
      (List.range n).foldlM (permuteIter o prompts) (st, a0) =
        some ({ w := (List.range n).foldl
                  (fun _ i => gatherRows prompts (o.permAt i)) st.w,
                k := st.k + n,
                tr := st.tr ++ (List.range n).flatMap (fun i =>
                  [Ev.mutate (RunId.permute i) (gatherRows prompts (o.permAt i)),
                   Ev.call (RunId.permute i) (o.metricsAt (st.k + i))]) },
              a0 + ((List.range n).map (fun i => nv (st.k + i))).sum) := by
  intro n
  induction n with
  | zero => intro st a0; simp
  | succ n ih =>
      intro st a0
      rw [List.range_succ, List.foldlM_append, ih st a0]
      simp only [Option.bind_eq_bind, Option.some_bind, List.foldlM_cons,
        List.foldlM_nil, permuteIter, hacc, Option.some_bind]
      simp [List.range_succ, List.foldl_append, List.flatMap_append,
        List.map_append, List.append_assoc, add_assoc, Nat.add_assoc]

/-- Claim C1, counterexample: the claim says that when
`training_args.do_train` is set the train loop runs, but with all three
flags set `__main__` performs no train action (lines 246-247 are
commented out in `run.py`). -/
theorem c1_flag_loops_counterexample :
    MainAct.trainAct ∉ mainLoops true true true none := by
  decide

/-- Claim C1, amended: of the three flag-guarded trainer loops only the
evaluate loop is live in `__main__`: `evaluate` runs exactly when
`do_eval` is set (receiving `last_checkpoint`), while the `do_train` and
`do_predict` branches are commented out, so no train or predict action
is ever performed. -/
theorem c1_flag_loops_amended :
    ∀ (dt de dp : Bool) (lc : Option String),
      (MainAct.evalAct lc ∈ mainLoops dt de dp lc ↔ de = true) ∧
      MainAct.trainAct ∉ mainLoops dt de dp lc ∧
      MainAct.predictAct ∉ mainLoops dt de dp lc := by
  intro dt de dp lc
  cases de <;> simp [mainLoops]

/-- Claim C2 (code bug): over a 64-row prompt-embedding weight, the
"remove first 7" step fails with a shape mismatch instead of zeroing
rows 0-6 — line 97 of `run.py` assigns a `(7, h)` zero tensor to the
single-row view `weight[7, :]` of shape `(h,)` — while the "remove last
7" step does zero exactly rows 57-63 and the "remove middle 7" step does
zero exactly rows 28-34. -/
theorem c2_zeroing_shape_bug :
    removeFirstStep oBoth p64 stBase = none ∧
    removeLastStep oBoth p64 stBase =
      some ({ w := List.replicate 57 [(1 : ℚ)] ++ List.replicate 7 [(0 : ℚ)],
              k := 1,
              tr := [Ev.mutate RunId.removeLast
                       (List.replicate 57 [(1 : ℚ)] ++ List.replicate 7 [(0 : ℚ)]),
                     Ev.call RunId.removeLast msBoth] }, (7 : ℚ)) ∧
    removeMiddleStep oBoth p64 stBase =
      some ({ w := List.replicate 28 [(1 : ℚ)] ++ List.replicate 7 [(0 : ℚ)] ++
                     List.replicate 29 [(1 : ℚ)],
              k := 1,
              tr := [Ev.mutate RunId.removeMiddle
                       (List.replicate 28 [(1 : ℚ)] ++ List.replicate 7 [(0 : ℚ)] ++
                          List.replicate 29 [(1 : ℚ)]),
                     Ev.call RunId.removeMiddle msBoth] }, (7 : ℚ)) := by
  refine ⟨rfl, ?_, ?_⟩ <;> decide

/-- Claim C4 (code bug): the Gaussian-noise ablation aggregates
`metrics["eval_noise"]`, not the `eval_accuracy` metric.  With a
standard metrics dictionary (which has `eval_accuracy` but no
`eval_noise` key) the very first noise run raises a `KeyError`
(`noisePhase` returns `none`); and when an `eval_noise` entry does
exist alongside `eval_accuracy = 7`, every recorded per-`j` average is
built from the `eval_noise` value `3`, so each equals `3` and not the
task accuracy `7`. -/
theorem c4_noise_metric_bug :
    getMetric (oAccOnly.metricsAt 0) "eval_accuracy" = some ((7 : ℚ)) ∧
    getMetric (oAccOnly.metricsAt 0) "eval_noise" = none ∧
    noisePhase oAccOnly stBase = none ∧
    getMetric (oBoth.metricsAt 0) "eval_accuracy" = some ((7 : ℚ)) ∧
    getMetric (oBoth.metricsAt 0) "eval_noise" = some ((3 : ℚ)) ∧
    (noisePhase oBoth stBase).map Prod.snd =
      some (List.replicate 15 (((0 : ℚ) + 3 + 3 + 3 + 3 + 3) / 5)) ∧
    ((0 : ℚ) + 3 + 3 + 3 + 3 + 3) / 5 = 3 := by
  exact ⟨rfl, rfl, rfl, rfl, rfl, rfl, by norm_num⟩

/-- Claim C5, counterexample: `"glue"` is one of the five implemented
task names, so the claim says the trainer is constructed; but with a
dataset name outside the task's dataset list the dispatch fails its
`assert` instead of constructing the trainer. -/
theorem c5_dispatch_counterexample :
    lowerStr "glue" ∈ ["superglue", "glue", "ner", "srl", "qa"] ∧
    selectTrainer tt0 "glue" "imdb" = MainOutcome.assertFailed := by
  exact ⟨by decide, by decide⟩

/-- Claim C5, amended: the dispatch raises `NotImplementedError` if and
only if the lowercased task name is not one of superglue, glue, ner,
srl, qa; otherwise, when the lowercased dataset name is in the selected
task's dataset list it imports that task's `get_trainer` and constructs
the trainer, and when it is not, the dataset assertion fails (an
`AssertionError`, not a constructed trainer).  Stated as equality with
the reference function `selectTrainerSpec` written from that wording. -/
theorem c5_dispatch_amended :
    ∀ (tt : TaskTables) (taskName datasetName : String),
      selectTrainer tt taskName datasetName =
        selectTrainerSpec tt taskName datasetName := by
  intro tt tn dn
  unfold selectTrainer selectTrainerSpec
  by_cases h1 : lowerStr tn = "superglue" <;>
    by_cases h2 : lowerStr tn = "glue" <;>
    by_cases h3 : lowerStr tn = "ner" <;>
    by_cases h4 : lowerStr tn = "srl" <;>
    by_cases h5 : lowerStr tn = "qa" <;>
    simp_all

/-- Claim C9: in `train`, the checkpoint passed to `trainer.train` is
`resume_from_checkpoint` when that is not `None`, otherwise
`last_checkpoint` when that is not `None`, otherwise `None`; the
function makes exactly one `trainer.train` call and then logs and saves
the metrics of that call's result (followed by `save_state` and
`log_best_metrics`). -/
theorem c9_checkpoint_precedence :
    ∀ (o : TrainOracle) (rfc lc : Option String),
      (trainRun o rfc lc =
        [TrainEv.trainCall (match rfc with | some c => some c | none => lc),
         TrainEv.logMetrics "train"
           (o.trainMetrics (match rfc with | some c => some c | none => lc)),
         TrainEv.saveMetrics "train"
           (o.trainMetrics (match rfc with | some c => some c | none => lc)),
         TrainEv.saveState, TrainEv.logBest]) ∧
      (trainRun o rfc lc).countP
        (fun e => match e with | TrainEv.trainCall _ => true | _ => false) = 1 := by
  intro o rfc lc
  cases rfc <;> cases lc <;> exact ⟨rfl, rfl⟩

/-- Claim C10: `predict` calls `trainer.predict` on no dataset when
`predict_dataset` is `None` (it only logs that no dataset is
available), once per entry when `predict_dataset` is a dict, and once
on the dataset otherwise. -/
theorem c10_predict_calls :
    ∀ (D : Type) (o : D → Metrics) (pd : PDataset D),
      ((predictRun o pd).filterMap callArg =
        match pd with
        | PDataset.nodata => []
        | PDataset.dict es => es.map (fun e => e.2)
        | PDataset.single d => [d]) ∧
      predictRun o PDataset.nodata = [PredEv.logNoDataset] := by
  intro D o pd
  refine ⟨?_, rfl⟩
  cases pd with
  | nodata => rfl
  | single d => rfl
  | dict es =>
      induction es with
      | nil => rfl
      | cons e es ih =>
          simpa [predictRun, callArg] using ih

end PV2

namespace PV2

/-- Claim C3: the permutation ablation performs exactly 100 evaluation
runs; run `i` installs a row-permutation — a gather along `o.permAt i`,
the run's fresh permutation of the row indices — of the learned
prompt-embedding matrix `prompts`, then calls `trainer.evaluate`; and
the reported average permute accuracy equals the sum of the 100 per-run
`eval_accuracy` values divided by 100. -/
theorem c3_permute_average (o : Oracle) (prompts : Mat) (st : EvSt) (nv : ℕ → ℚ)
    (hacc : ∀ m, getMetric (o.metricsAt m) "eval_accuracy" = some (nv m))
    (hperm : ∀ i, i < 100 → (o.permAt i).Perm (List.range prompts.length)) :
    (∃ wfin,
      permutePhase o prompts st =
        some ({ w := wfin, k := st.k + 100,
                tr := st.tr ++ (List.range 100).flatMap (fun i =>
                  [Ev.mutate (RunId.permute i) (gatherRows prompts (o.permAt i)),
                   Ev.call (RunId.permute i) (o.metricsAt (st.k + i))]) },
              ((List.range 100).map (fun i => nv (st.k + i))).sum / 100)) ∧
    (∀ i, i < 100 → (gatherRows prompts (o.permAt i)).Perm prompts) := by
  constructor
  · refine ⟨(List.range 100).foldl
        (fun _ i => gatherRows prompts (o.permAt i)) st.w, ?_⟩
    unfold permutePhase
    rw [permuteFold_spec o prompts nv hacc 100 st 0]
    simp
  · intro i hi
    exact gatherRows_perm prompts (o.permAt i) (hperm i hi)

/-- The index list `[0, 1]` is a permutation of the row indices of `p2`. -/
theorem perm01 : ([0, 1] : List ℕ).Perm (List.range p2.length) := by
  decide

/-- Witness for claim C3: concrete two-row prompt matrix, identity
permutations, constant metrics. -/
theorem c3_permute_average_witness :
    (∀ m, getMetric (oP2.metricsAt m) "eval_accuracy" = some ((7 : ℚ))) ∧
    (∀ i, i < 100 → (oP2.permAt i).Perm (List.range p2.length)) ∧
    ((∃ wfin,
      permutePhase oP2 p2 st2 =
        some ({ w := wfin, k := st2.k + 100,
                tr := st2.tr ++ (List.range 100).flatMap (fun i =>
                  [Ev.mutate (RunId.permute i) (gatherRows p2 (oP2.permAt i)),
                   Ev.call (RunId.permute i) (oP2.metricsAt (st2.k + i))]) },
              ((List.range 100).map (fun _ => (7 : ℚ))).sum / 100)) ∧
    (∀ i, i < 100 → (gatherRows p2 (oP2.permAt i)).Perm p2)) :=
  ⟨fun _ => rfl, fun _ _ => perm01,
   c3_permute_average oP2 p2 st2 (fun _ => 7) (fun _ => rfl) (fun _ _ => perm01)⟩

/-- Claim C8: in every one of the 100 permutation iterations the weight
installed is the gather of the original prompt matrix `prompts` captured
once before the loop — not of the previous iteration's already-permuted
weight — so the rows of every installed weight are a permutation of the
originally learned prompt vectors. -/
theorem c8_permutation_of_original (o : Oracle) (prompts : Mat) (st : EvSt)
    (nv : ℕ → ℚ)
    (hacc : ∀ m, getMetric (o.metricsAt m) "eval_accuracy" = some (nv m))
    (hperm : ∀ i, i < 100 → (o.permAt i).Perm (List.range prompts.length)) :
    ∃ st' avg, permutePhase o prompts st = some (st', avg) ∧
      ∀ i, i < 100 →
        Ev.mutate (RunId.permute i) (gatherRows prompts (o.permAt i)) ∈ st'.tr ∧
        (gatherRows prompts (o.permAt i)).Perm prompts := by
  refine ⟨{ w := (List.range 100).foldl
              (fun _ i => gatherRows prompts (o.permAt i)) st.w,
            k := st.k + 100,
            tr := st.tr ++ (List.range 100).flatMap (fun i =>
              [Ev.mutate (RunId.permute i) (gatherRows prompts (o.permAt i)),
               Ev.call (RunId.permute i) (o.metricsAt (st.k + i))]) },
          (0 + ((List.range 100).map (fun i => nv (st.k + i))).sum) / 100,
          ?_, ?_⟩
  · unfold permutePhase
    rw [permuteFold_spec o prompts nv hacc 100 st 0]
    rfl
  · intro i hi
    constructor
    · show Ev.mutate (RunId.permute i) (gatherRows prompts (o.permAt i)) ∈
        st.tr ++ (List.range 100).flatMap (fun i =>
          [Ev.mutate (RunId.permute i) (gatherRows prompts (o.permAt i)),
           Ev.call (RunId.permute i) (o.metricsAt (st.k + i))])
      refine List.mem_append.mpr (Or.inr ?_)
      rw [List.mem_flatMap]
      exact ⟨i, List.mem_range.mpr hi, by simp⟩
    · exact gatherRows_perm prompts (o.permAt i) (hperm i hi)

/-- Witness for claim C8: concrete two-row prompt matrix, identity
permutations, constant metrics. -/
theorem c8_permutation_of_original_witness :
    (∀ m, getMetric (oP2.metricsAt m) "eval_accuracy" = some ((7 : ℚ))) ∧
    (∀ i, i < 100 → (oP2.permAt i).Perm (List.range p2.length)) ∧
    (∃ st' avg, permutePhase oP2 p2 st2 = some (st', avg) ∧
      ∀ i, i < 100 →
        Ev.mutate (RunId.permute i) (gatherRows p2 (oP2.permAt i)) ∈ st'.tr ∧
        (gatherRows p2 (oP2.permAt i)).Perm p2) :=
  ⟨fun _ => rfl, fun _ _ => perm01,
   c8_permutation_of_original oP2 p2 st2 (fun _ => 7) (fun _ => rfl)
     (fun _ _ => perm01)⟩

end PV2

namespace PV2

/-! ### Run-chunk decomposition lemmas -/

/-- Unfolding `chunksJoin` over a cons. -/
theorem chunksJoin_cons (c : RunId × Mat × Metrics)
    (cs : List (RunId × Mat × Metrics)) :
    chunksJoin (c :: cs) = chunkEvents c ++ chunksJoin cs := by
  simp [chunksJoin]

/-- `callVals` distributes over trace concatenation. -/
theorem callVals_append (key : String) (l1 l2 : List Ev) :
    callVals key (l1 ++ l2) = callVals key l1 ++ callVals key l2 := by
  simp [callVals, List.filterMap_append]

/-- A fold of a step function that extends the trace by exactly one
`[mutate, call]` chunk per step, and accumulates exactly the stepped
call's metric value under `key`, produces one chunk per list element and
accumulates the metric values of exactly those calls. -/
theorem foldlM_one_chunk {α : Type} (f : (EvSt × ℚ) → α → Option (EvSt × ℚ))
    (key : String)
    (hf : ∀ (st : EvSt) (acc : ℚ) (x : α) (st' : EvSt) (acc' : ℚ),
      f (st, acc) x = some (st', acc') →
      ∃ c, st'.tr = st.tr ++ chunkEvents c ∧
        acc' = acc + (callVals key (chunkEvents c)).sum) :
    ∀ (l : List α) (st : EvSt) (acc : ℚ) (st' : EvSt) (acc' : ℚ),
      l.foldlM f (st, acc) = some (st', acc') →
      ∃ cs, cs.length = l.length ∧ st'.tr = st.tr ++ chunksJoin cs ∧
        acc' = acc + (callVals key (chunksJoin cs)).sum := by
  intro l
  induction l with
  | nil =>
      intro st acc st' acc' h
      simp only [List.foldlM_nil, Option.pure_def, Option.some.injEq,
        Prod.mk.injEq] at h
      obtain ⟨h1, h2⟩ := h
      exact ⟨[], rfl, by simp [← h1, chunksJoin],
        by simp [← h2, chunksJoin, callVals]⟩
  | cons x xs ih =>
      intro st acc st' acc' h
      rw [List.foldlM_cons] at h
      cases hx : f (st, acc) x with
      | none => rw [hx] at h; simp at h
      | some p =>
          obtain ⟨st1, acc1⟩ := p
          rw [hx] at h
          simp only [Option.bind_eq_bind, Option.some_bind] at h
          obtain ⟨c, hct, hca⟩ := hf st acc x st1 acc1 hx
          obtain ⟨cs, hl, ht, ha⟩ := ih st1 acc1 st' acc' h
          refine ⟨c :: cs, by simp [hl], ?_, ?_⟩
          · rw [ht, hct, chunksJoin_cons, List.append_assoc]
          · rw [ha, hca, chunksJoin_cons, callVals_append]
            simp [add_assoc]

/-- One permutation iteration extends the trace by one run chunk and
adds exactly that chunk's `eval_accuracy` call value. -/
theorem permuteIter_chunk (o : Oracle) (prompts : Mat) :
    ∀ (st : EvSt) (acc : ℚ) (i : ℕ) (st' : EvSt) (acc' : ℚ),
      permuteIter o prompts (st, acc) i = some (st', acc') →
      ∃ c, st'.tr = st.tr ++ chunkEvents c ∧
        acc' = acc + (callVals "eval_accuracy" (chunkEvents c)).sum := by
  intro st acc i st' acc' h
  cases hm : getMetric (o.metricsAt st.k) "eval_accuracy" with
  | none => simp [permuteIter, hm] at h
  | some a =>
      simp only [permuteIter, hm, Option.bind_eq_bind, Option.some_bind,
        Option.pure_def, Option.some.injEq, Prod.mk.injEq] at h
      obtain ⟨h1, h2⟩ := h
      refine ⟨(RunId.permute i, gatherRows prompts (o.permAt i),
        o.metricsAt st.k), ?_, ?_⟩
      · rw [← h1]; rfl
      · rw [← h2]; simp [chunkEvents, callVals, hm]

/-- One noise run extends the trace by one run chunk and adds exactly
that chunk's `eval_noise` call value. -/
theorem noiseInner_chunk (o : Oracle) (j : ℕ) :
    ∀ (st : EvSt) (acc : ℚ) (i : ℕ) (st' : EvSt) (acc' : ℚ),
      noiseInner o j (st, acc) i = some (st', acc') →
      ∃ c, st'.tr = st.tr ++ chunkEvents c ∧
        acc' = acc + (callVals "eval_noise" (chunkEvents c)).sum := by
  intro st acc i st' acc' h
  cases hw : (o.sampleAt j i).foldlM
      (fun w r => setRow w r (Tensor.vec (o.noiseAt j i r))) st.w with
  | none => simp [noiseInner, hw] at h
  | some w' =>
      cases hm : getMetric (o.metricsAt st.k) "eval_noise" with
      | none => simp [noiseInner, hw, hm] at h
      | some a =>
          simp only [noiseInner, hw, hm, Option.bind_eq_bind, Option.some_bind,
            Option.pure_def, Option.some.injEq, Prod.mk.injEq] at h
          obtain ⟨h1, h2⟩ := h
          refine ⟨(RunId.noise j i, w', o.metricsAt st.k), ?_, ?_⟩
          · rw [← h1]; rfl
          · rw [← h2]; simp [chunkEvents, callVals, hm]

/-- A successful permutation phase appends exactly 100 run chunks —
each run first mutates the weight, then calls `trainer.evaluate` — and
reports the sum of those calls' `eval_accuracy` values divided by 100. -/
theorem permutePhase_chunks (o : Oracle) (prompts : Mat) (st : EvSt)
    (q : EvSt × ℚ) (h : permutePhase o prompts st = some q) :
    ∃ cs, cs.length = 100 ∧ q.1.tr = st.tr ++ chunksJoin cs ∧
      q.2 = (callVals "eval_accuracy" (chunksJoin cs)).sum / 100 := by
  unfold permutePhase at h
  cases hf : (List.range 100).foldlM (permuteIter o prompts) (st, (0 : ℚ)) with
  | none => rw [hf] at h; simp at h
  | some p =>
      rw [hf] at h
      simp only [Option.bind_eq_bind, Option.some_bind, Option.pure_def,
        Option.some.injEq] at h
      obtain ⟨cs, hl, ht, ha⟩ := foldlM_one_chunk (permuteIter o prompts)
        "eval_accuracy" (permuteIter_chunk o prompts) (List.range 100)
        st 0 p.1 p.2 (by rw [hf])
      refine ⟨cs, by simpa using hl, ?_, ?_⟩
      · rw [← h]; exact ht
      · rw [← h]
        show p.2 / 100 = _
        rw [ha, zero_add]

/-- A successful "remove last 7" step appends exactly one run chunk and
reports that chunk's `eval_accuracy` call value. -/
theorem removeLastStep_chunk (o : Oracle) (prompts : Mat) (st : EvSt)
    (q : EvSt × ℚ) (h : removeLastStep o prompts st = some q) :
    ∃ c, q.1.tr = st.tr ++ chunkEvents c ∧
      q.2 = (callVals "eval_accuracy" (chunkEvents c)).sum := by
  cases hw : setSlice st.w 57 64 (Tensor.mat (zeros 7 (width prompts))) with
  | none => simp [removeLastStep, hw] at h
  | some w' =>
      cases hm : getMetric (o.metricsAt st.k) "eval_accuracy" with
      | none => simp [removeLastStep, hw, hm] at h
      | some a =>
          simp only [removeLastStep, hw, hm, Option.bind_eq_bind,
            Option.some_bind, Option.pure_def, Option.some.injEq] at h
          refine ⟨(RunId.removeLast, w', o.metricsAt st.k), ?_, ?_⟩
          · rw [← h]; rfl
          · rw [← h]; simp [chunkEvents, callVals, hm]

/-- A successful "remove middle 7" step appends exactly one run chunk
and reports that chunk's `eval_accuracy` call value. -/
theorem removeMiddleStep_chunk (o : Oracle) (prompts : Mat) (st : EvSt)
    (q : EvSt × ℚ) (h : removeMiddleStep o prompts st = some q) :
    ∃ c, q.1.tr = st.tr ++ chunkEvents c ∧
      q.2 = (callVals "eval_accuracy" (chunkEvents c)).sum := by
  cases hw : setSlice st.w 28 35 (Tensor.mat (zeros 7 (width prompts))) with
  | none => simp [removeMiddleStep, hw] at h
  | some w' =>
      cases hm : getMetric (o.metricsAt st.k) "eval_accuracy" with
      | none => simp [removeMiddleStep, hw, hm] at h
      | some a =>
          simp only [removeMiddleStep, hw, hm, Option.bind_eq_bind,
            Option.some_bind, Option.pure_def, Option.some.injEq] at h
          refine ⟨(RunId.removeMiddle, w', o.metricsAt st.k), ?_, ?_⟩
          · rw [← h]; rfl
          · rw [← h]; simp [chunkEvents, callVals, hm]

/-- The "remove first 7" step always fails: it assigns the 2-D tensor
`torch.zeros(7, h)` to the 1-D single-row view `weight[7, :]`, a shape
mismatch, so it never reaches its `trainer.evaluate` call. -/
theorem removeFirstStep_none (o : Oracle) (prompts : Mat) (st : EvSt) :
    removeFirstStep o prompts st = none := by
  have h : setRow st.w 7 (Tensor.mat (zeros 7 (width prompts))) = none := by
    unfold setRow
    split
    · simp [expandToRow, expandableTo, tensorShape]
    · rfl
  simp [removeFirstStep, h]

/-- One outer noise iteration appends exactly 5 run chunks and records
the average of those chunks' `eval_noise` call values. -/
theorem noiseOuter_chunk (o : Oracle) (st : EvSt) (res : List ℚ) (j : ℕ)
    (st' : EvSt) (res' : List ℚ)
    (h : noiseOuter o (st, res) j = some (st', res')) :
    ∃ cs, cs.length = 5 ∧ st'.tr = st.tr ++ chunksJoin cs ∧
      res' = res ++ [(callVals "eval_noise" (chunksJoin cs)).sum / 5] := by
  unfold noiseOuter at h
  cases hq : (List.range 5).foldlM (noiseInner o j) (st, (0 : ℚ)) with
  | none => rw [hq] at h; simp at h
  | some p =>
      rw [hq] at h
      simp only [Option.bind_eq_bind, Option.some_bind, Option.pure_def,
        Option.some.injEq, Prod.mk.injEq] at h
      obtain ⟨h1, h2⟩ := h
      obtain ⟨cs, hl, ht, ha⟩ := foldlM_one_chunk (noiseInner o j)
        "eval_noise" (noiseInner_chunk o j) (List.range 5) st 0 p.1 p.2
        (by rw [hq])
      refine ⟨cs, by simpa using hl, ?_, ?_⟩
      · rw [← h1]; exact ht
      · rw [← h2, ha, zero_add]

/-- A successful fold of outer noise iterations appends, per iteration,
a block of 5 run chunks, and appends to `results` that block's average
`eval_noise` value. -/
theorem noiseFold_chunks (o : Oracle) :
    ∀ (l : List ℕ) (st : EvSt) (res : List ℚ) (st' : EvSt) (res' : List ℚ),
      l.foldlM (noiseOuter o) (st, res) = some (st', res') →
      ∃ css : List (List (RunId × Mat × Metrics)),
        css.length = l.length ∧ (∀ cs ∈ css, cs.length = 5) ∧
        st'.tr = st.tr ++ (css.map chunksJoin).flatten ∧
        res' = res ++ css.map
          (fun cs => (callVals "eval_noise" (chunksJoin cs)).sum / 5) := by
  intro l
  induction l with
  | nil =>
      intro st res st' res' h
      simp only [List.foldlM_nil, Option.pure_def, Option.some.injEq,
        Prod.mk.injEq] at h
      obtain ⟨h1, h2⟩ := h
      exact ⟨[], rfl, by simp, by simp [← h1], by simp [← h2]⟩
  | cons x xs ih =>
      intro st res st' res' h
      rw [List.foldlM_cons] at h
      cases hx : noiseOuter o (st, res) x with
      | none => rw [hx] at h; simp at h
      | some p =>
          obtain ⟨st1, res1⟩ := p
          rw [hx] at h
          simp only [Option.bind_eq_bind, Option.some_bind] at h
          obtain ⟨cs, hcl, hct, hcr⟩ := noiseOuter_chunk o st res x st1 res1 hx
          obtain ⟨css, hl, h5, ht, hr⟩ := ih st1 res1 st' res' h
          refine ⟨cs :: css, by simp [hl], ?_, ?_, ?_⟩
          · intro c hc
            rcases List.mem_cons.mp hc with h' | h'
            · rw [h']; exact hcl
            · exact h5 c h'
          · rw [ht, hct]; simp [List.append_assoc]
          · rw [hr, hcr]; simp

/-- A successful Gaussian-noise phase appends 15 blocks of 5 run chunks
each, and its results row lists, in order, each block's average
`eval_noise` value. -/
theorem noisePhase_chunks (o : Oracle) (st : EvSt) (q : EvSt × List ℚ)
    (h : noisePhase o st = some q) :
    ∃ css : List (List (RunId × Mat × Metrics)),
      css.length = 15 ∧ (∀ cs ∈ css, cs.length = 5) ∧
      q.1.tr = st.tr ++ (css.map chunksJoin).flatten ∧
      q.2 = css.map
        (fun cs => (callVals "eval_noise" (chunksJoin cs)).sum / 5) := by
  obtain ⟨css, hl, h5, ht, hr⟩ := noiseFold_chunks o (List.range 15) st []
    q.1 q.2 (by rw [← h]; rfl)
  exact ⟨css, by simpa using hl, h5, ht, by simpa using hr⟩

end PV2

namespace PV2

/-- Claim C6: whenever the Gaussian-noise ablation completes with a
results row, the aggregation produces a table whose file name is
`remove_result.csv`, whose 15 columns are named `"0"` through `"14"`,
whose values are the per-`j` averages rounded to 4 decimal places, and
which is written without an index column. -/
theorem c6_csv_structure (o : Oracle) (st : EvSt)
    (h : (noisePhase o st).isSome) :
    (makeCsv ((noisePhase o st).get h).2).filename = "remove_result.csv" ∧
    (makeCsv ((noisePhase o st).get h).2).columns =
      ["0", "1", "2", "3", "4", "5", "6", "7", "8", "9", "10", "11", "12",
       "13", "14"] ∧
    (makeCsv ((noisePhase o st).get h).2).index = false ∧
    (makeCsv ((noisePhase o st).get h).2).row =
      (((noisePhase o st).get h).2).map round4 ∧
    (((noisePhase o st).get h).2).length = 15 := by
  obtain ⟨q, hq⟩ := Option.isSome_iff_exists.mp h
  have hg : (noisePhase o st).get h = q := by simp [hq]
  obtain ⟨css, h15, h5, ht, hr⟩ := noisePhase_chunks o st q hq
  rw [hg]
  refine ⟨rfl, ?_, rfl, rfl, ?_⟩
  · show (List.range 15).map toString = _
    decide
  · rw [hr]
    simp [h15]

/-- The concrete Gaussian-noise phase over `oBoth` completes. -/
theorem noiseIsSomeW : (noisePhase oBoth stBase).isSome := rfl

/-- Witness for claim C6 at the concrete oracle `oBoth`. -/
theorem c6_csv_structure_witness :
    (makeCsv ((noisePhase oBoth stBase).get noiseIsSomeW).2).filename =
      "remove_result.csv" ∧
    (makeCsv ((noisePhase oBoth stBase).get noiseIsSomeW).2).columns =
      ["0", "1", "2", "3", "4", "5", "6", "7", "8", "9", "10", "11", "12",
       "13", "14"] ∧
    (makeCsv ((noisePhase oBoth stBase).get noiseIsSomeW).2).index = false ∧
    (makeCsv ((noisePhase oBoth stBase).get noiseIsSomeW).2).row =
      (((noisePhase oBoth stBase).get noiseIsSomeW).2).map round4 ∧
    (((noisePhase oBoth stBase).get noiseIsSomeW).2).length = 15 :=
  c6_csv_structure oBoth stBase noiseIsSomeW

/-- Claim C7: in every ablation run that reaches its `trainer.evaluate`
call, the run's weight mutation is traced immediately before that call
(the trace decomposes into `[mutate, call]` chunks), and every
aggregated quantity — the permute average, the per-step remove
accuracies, the per-`j` noise averages — is computed exactly from the
metrics returned by the `trainer.evaluate` calls of those chunks, never
from a metric obtained before the run's mutation.  The "remove first 7"
step fails at its mutation and therefore never reaches a
`trainer.evaluate` call, so nothing is aggregated for it. -/
theorem c7_mutation_before_evaluation
    (o : Oracle) (prompts : Mat) (stP stL stM stN : EvSt)
    (hP : (permutePhase o prompts stP).isSome)
    (hL : (removeLastStep o prompts stL).isSome)
    (hM : (removeMiddleStep o prompts stM).isSome)
    (hN : (noisePhase o stN).isSome) :
    (∃ cs : List (RunId × Mat × Metrics), cs.length = 100 ∧
      ((permutePhase o prompts stP).get hP).1.tr = stP.tr ++ chunksJoin cs ∧
      ((permutePhase o prompts stP).get hP).2 =
        (callVals "eval_accuracy" (chunksJoin cs)).sum / 100) ∧
    (∃ c, ((removeLastStep o prompts stL).get hL).1.tr =
        stL.tr ++ chunkEvents c ∧
      ((removeLastStep o prompts stL).get hL).2 =
        (callVals "eval_accuracy" (chunkEvents c)).sum) ∧
    (∃ c, ((removeMiddleStep o prompts stM).get hM).1.tr =
        stM.tr ++ chunkEvents c ∧
      ((removeMiddleStep o prompts stM).get hM).2 =
        (callVals "eval_accuracy" (chunkEvents c)).sum) ∧
    (∃ css : List (List (RunId × Mat × Metrics)), css.length = 15 ∧
      (∀ cs ∈ css, cs.length = 5) ∧
      ((noisePhase o stN).get hN).1.tr =
        stN.tr ++ (css.map chunksJoin).flatten ∧
      ((noisePhase o stN).get hN).2 = css.map
        (fun cs => (callVals "eval_noise" (chunksJoin cs)).sum / 5)) ∧
    (∀ st : EvSt, removeFirstStep o prompts st = none) := by
  obtain ⟨qP, hqP⟩ := Option.isSome_iff_exists.mp hP
  obtain ⟨qL, hqL⟩ := Option.isSome_iff_exists.mp hL
  obtain ⟨qM, hqM⟩ := Option.isSome_iff_exists.mp hM
  obtain ⟨qN, hqN⟩ := Option.isSome_iff_exists.mp hN
  have hgP : (permutePhase o prompts stP).get hP = qP := by simp [hqP]
  have hgL : (removeLastStep o prompts stL).get hL = qL := by simp [hqL]
  have hgM : (removeMiddleStep o prompts stM).get hM = qM := by simp [hqM]
  have hgN : (noisePhase o stN).get hN = qN := by simp [hqN]
  rw [hgP, hgL, hgM, hgN]
  exact ⟨permutePhase_chunks o prompts stP qP hqP,
         removeLastStep_chunk o prompts stL qL hqL,
         removeMiddleStep_chunk o prompts stM qM hqM,
         noisePhase_chunks o stN qN hqN,
         removeFirstStep_none o prompts⟩

/-- The concrete permutation phase over `oBoth` completes. -/
theorem permIsSomeW : (permutePhase oBoth p64 stBase).isSome := rfl

/-- The concrete "remove last 7" step over `oBoth` completes. -/
theorem removeLastIsSomeW : (removeLastStep oBoth p64 stBase).isSome := rfl

/-- The concrete "remove middle 7" step over `oBoth` completes. -/
theorem removeMiddleIsSomeW : (removeMiddleStep oBoth p64 stBase).isSome := rfl

/-- Witness for claim C7 at the concrete oracle `oBoth` over `p64`. -/
theorem c7_mutation_before_evaluation_witness :
    (∃ cs : List (RunId × Mat × Metrics), cs.length = 100 ∧
      ((permutePhase oBoth p64 stBase).get permIsSomeW).1.tr =
        stBase.tr ++ chunksJoin cs ∧
      ((permutePhase oBoth p64 stBase).get permIsSomeW).2 =
        (callVals "eval_accuracy" (chunksJoin cs)).sum / 100) ∧
    (∃ c, ((removeLastStep oBoth p64 stBase).get removeLastIsSomeW).1.tr =
        stBase.tr ++ chunkEvents c ∧
      ((removeLastStep oBoth p64 stBase).get removeLastIsSomeW).2 =
        (callVals "eval_accuracy" (chunkEvents c)).sum) ∧
    (∃ c, ((removeMiddleStep oBoth p64 stBase).get removeMiddleIsSomeW).1.tr =
        stBase.tr ++ chunkEvents c ∧
      ((removeMiddleStep oBoth p64 stBase).get removeMiddleIsSomeW).2 =
        (callVals "eval_accuracy" (chunkEvents c)).sum) ∧
    (∃ css : List (List (RunId × Mat × Metrics)), css.length = 15 ∧
      (∀ cs ∈ css, cs.length = 5) ∧
      ((noisePhase oBoth stBase).get noiseIsSomeW).1.tr =
        stBase.tr ++ (css.map chunksJoin).flatten ∧
      ((noisePhase oBoth stBase).get noiseIsSomeW).2 = css.map
        (fun cs => (callVals "eval_noise" (chunksJoin cs)).sum / 5)) ∧
    (∀ st : EvSt, removeFirstStep oBoth p64 st = none) :=
  c7_mutation_before_evaluation oBoth p64 stBase stBase stBase stBase
    permIsSomeW removeLastIsSomeW removeMiddleIsSomeW noiseIsSomeW

end PV2
